import Mathlib

/-!
Verification development for the DroneFlow real-time notification subsystem.

The definitions below are a shallow embedding of the repository's source:
* `routes/events.js` — SSE connection registry, heartbeat, reaper, broadcast;
* `routes/requests.js` — the CRUD mutation API that triggers broadcasts.

Timestamps are epoch milliseconds modelled as `Nat` (the JS code only ever
subtracts a smaller from a larger timestamp and compares against constants,
so truncated subtraction agrees with the JS arithmetic on these inputs).
Strings emitted over the wire are modelled with Lean `String`s; JS object
serialisation (`JSON.stringify`) is modelled by the `Json` type and its
renderer below.
-/

namespace DroneFlow

/-- Minimal JSON value model for the objects the routes serialise.
`JSON.stringify` escaping is modelled for the characters that can occur in
this program's payloads (quote, backslash, newline, carriage return, tab). -/
inductive Json where
  | str (s : String)
  | num (n : Int)
  | bool (b : Bool)
  | obj (fields : List (String × Json))

def jsEscapeChar (c : Char) : String :=
  if c = '\"' then "\\\""
  else if c = '\\' then "\\\\"
  else if c = '\n' then "\\n"
  else if c = '\r' then "\\r"
  else if c = '\t' then "\\t"
  else String.singleton c

def jsEscape (s : String) : String :=
  String.join (s.toList.map jsEscapeChar)

mutual

/-- Models `JSON.stringify` on the object shapes this program serialises:
fields in insertion order, no added whitespace. -/
def Json.render : Json → String
  | .str s => "\"" ++ jsEscape s ++ "\""
  | .num n => toString n
  | .bool b => if b then "true" else "false"
  | .obj fs => "\x7b" ++ Json.renderFields fs ++ "\x7d"

def Json.renderFields : List (String × Json) → String
  | [] => ""
  | [(k, v)] => "\"" ++ jsEscape k ++ "\":" ++ Json.render v
  | (k, v) :: f :: fs =>
      "\"" ++ jsEscape k ++ "\":" ++ Json.render v ++ "," ++ Json.renderFields (f :: fs)

end

/-- State of a client's `response` stream as observed by `events.js`:
whether the handle is present (`client.response` truthy), whether the
stream is destroyed (`response.destroyed`), and whether a write to it
throws (the failure mode caught by the `try`/`catch` blocks). -/
structure ResponseState where
  present : Bool
  destroyed : Bool
  failsWrite : Bool
  deriving DecidableEq, Repr

/-- A registered SSE client, as built in the `router.get` handler of
`routes/events.js`: `id` and `lastPing` are both `Date.now()` at admission.
`token` models JavaScript object identity (the `Set` stores objects, so two
clients with equal fields are still distinct members). -/
structure Client where
  token : Nat
  id : Nat
  response : ResponseState
  lastPing : Nat
  deriving DecidableEq, Repr

/-- Observable side effects on sinks: a chunk written to a client's stream
(`response.write`) or a close call (`response.end`). -/
inductive Action where
  | write (token : Nat) (chunk : String)
  | endCall (token : Nat)
  deriving DecidableEq, Repr

/-- The registry `sseClients` is a JS `Set` iterated in insertion order;
modelled as a list ordered by insertion. -/
abbrev Registry := List Client

/-- `sseClients.delete(client)` — removal of one client object. -/
def removeClient (c : Client) (r : Registry) : Registry :=
  r.filter (fun d => d.token != c.token)

/-- Client admission in the `router.get('/')` handler: build the client
object with `id = Date.now()` and `lastPing = Date.now()`, add it to the
set, and write the initial `connected` message to the new client only. -/
def admitClient (now : Nat) (tok : Nat) (iso : String) (r : Registry) :
    Registry × List Action :=
  let c : Client := ⟨tok, now, ⟨true, false, false⟩, now⟩
  (r ++ [c],
   [Action.write tok ("data: " ++ Json.render (.obj
      [("type", .str "connected"),
       ("message", .str "Real-time connection established"),
       ("timestamp", .str iso)]) ++ "\n\n")])

/-- The serialised message built at the top of `broadcastToClients`. -/
def broadcastMessage (eventType : String) (data : Json) (iso : String) : String :=
  Json.render (.obj [("type", .str eventType), ("data", data), ("timestamp", .str iso)])

/-- Per-client loop body of `broadcastToClients` (the `sseClients.forEach`):
a client with a present, non-destroyed response gets two writes (`event:` line
and `data:` line); a write that throws is caught and the client deleted; a
client with a missing or destroyed response is deleted without a write. -/
def broadcastGo (eventType msg : String) : Registry → Registry × List Action
  | [] => ([], [])
  | c :: cs =>
    let rest := broadcastGo eventType msg cs
    if c.response.present && !c.response.destroyed then
      if c.response.failsWrite then
        (rest.1, rest.2)
      else
        (c :: rest.1,
         Action.write c.token ("event: " ++ eventType ++ "\n") ::
         Action.write c.token ("data: " ++ msg ++ "\n\n") :: rest.2)
    else
      (rest.1, rest.2)

/-- `broadcastToClients(eventType, data)` from `routes/events.js`:
serialise `{type, data, timestamp}` once, then deliver to every client in
the registry, pruning clients whose sink is gone or whose write throws.
Returns the registry after the call and the writes performed. -/
def broadcastToClients (eventType : String) (data : Json) (iso : String)
    (r : Registry) : Registry × List Action :=
  broadcastGo eventType (broadcastMessage eventType data iso) r

/-- The heartbeat frame written by the 30-second `setInterval` callback. -/
def heartbeatFrame (iso : String) : String :=
  "data: " ++ Json.render (.obj [("type", .str "heartbeat"), ("timestamp", .str iso)]) ++ "\n\n"

structure TickResult where
  registry : Registry
  actions : List Action
  intervalCleared : Bool
  deriving Repr

/-- One execution of the heartbeat `setInterval` callback for client `c`:
try to write the heartbeat frame; on success set `client.lastPing = Date.now()`;
if the write throws, the `catch` clears the interval and deletes the client
(the exception does not escape the callback). -/
def heartbeatTick (now : Nat) (iso : String) (c : Client) (r : Registry) : TickResult :=
  if c.response.failsWrite then
    ⟨removeClient c r, [], true⟩
  else
    ⟨r.map (fun d => if d.token == c.token then { d with lastPing := now } else d),
     [Action.write c.token (heartbeatFrame iso)],
     false⟩

/-- The `req.on('close')` / `req.on('error')` handlers: clear the heartbeat
interval and delete the client. No write or close is performed on the sink. -/
def onDisconnect (c : Client) (r : Registry) : Registry × List Action :=
  (removeClient c r, [])

/-- `staleTimeout` in `cleanupConnections`: 5 minutes in milliseconds. -/
def staleTimeout : Nat := 5 * 60 * 1000

/-- Loop body of `cleanupConnections`: a client whose `lastPing` age exceeds
`staleTimeout` has `response.end()` called (when the response is present and
not destroyed; any exception is caught) and is deleted; others are kept. -/
def cleanupGo (now : Nat) : Registry → Registry × List Action
  | [] => ([], [])
  | c :: cs =>
    let rest := cleanupGo now cs
    if staleTimeout < now - c.lastPing then
      (rest.1,
       (if c.response.present && !c.response.destroyed then [Action.endCall c.token] else [])
         ++ rest.2)
    else
      (c :: rest.1, rest.2)

/-- `cleanupConnections()` from `routes/events.js` (the stale-connection
reaper pass), with `now = Date.now()` passed explicitly. -/
def cleanupConnections (now : Nat) (r : Registry) : Registry × List Action :=
  cleanupGo now r

structure Stats where
  totalConnections : Nat
  activeConnections : Nat
  oldConnections : Nat
  deriving DecidableEq, Repr

/-- `getConnectionStats()` from `routes/events.js`: total set size, clients
with a present non-destroyed response, and clients with
`Date.now() - lastPing > 60000`. -/
def getConnectionStats (now : Nat) (r : Registry) : Stats :=
  ⟨r.length,
   (r.filter (fun c => c.response.present && !c.response.destroyed)).length,
   (r.filter (fun c => decide (60000 < now - c.lastPing))).length⟩

/-- Operations that mutate the registry over a run: a client admission (with
its `Date.now()` timestamp and a fresh object token) or a deletion of a
client object. -/
inductive RegOp where
  | admitOp (now tok : Nat)
  | removeOp (tok : Nat)
  deriving DecidableEq, Repr

def applyRegOp (r : Registry) : RegOp → Registry
  | .admitOp now tok => (admitClient now tok "" r).1
  | .removeOp tok => r.filter (fun d => d.token != tok)

/-- The registry reached from empty by a sequence of admissions/removals. -/
def runRegOps (ops : List RegOp) : Registry :=
  ops.foldl applyRegOp []

/-- The `Date.now()` values of the admissions in a run. -/
def admitTimes (ops : List RegOp) : List Nat :=
  ops.filterMap (fun o => match o with | .admitOp now _ => some now | .removeOp _ => none)

/-- A client is delivered to by `broadcastToClients` iff its response is
present, not destroyed, and the write does not throw. -/
def deliverable (c : Client) : Bool :=
  (c.response.present && !c.response.destroyed) && !c.response.failsWrite

/-- The chunks written to a given client token, in order. -/
def chunksTo (tok : Nat) : List Action → List String
  | [] => []
  | Action.write t s :: rest => (if t = tok then [s] else []) ++ chunksTo tok rest
  | Action.endCall _ :: rest => chunksTo tok rest

/-- The SSE frame for one broadcast delivery: the `event:` line chunk then
the `data:` line chunk, exactly as the two `response.write` calls emit it. -/
def sseFrameChunks (eventType msg : String) : List String :=
  ["event: " ++ eventType ++ "\n", "data: " ++ msg ++ "\n\n"]

/-! ## The mutation API (`routes/requests.js`) -/

/-- A JS object with string-valued fields, as the request bodies and stored
records are manipulated by `routes/requests.js` (spread, delete, key lookup). -/
abbrev Obj := List (String × String)

/-- Property access `o.k` (some value, or `none` for `undefined`). -/
def getField (o : Obj) (k : String) : Option String :=
  (o.find? (fun p => p.1 == k)).map (·.2)

/-- The `delete o.k` operator. -/
def removeField (o : Obj) (k : String) : Obj :=
  o.filter (fun p => p.1 != k)

/-- The object spread `\x7b...a, ...b\x7d`: keys of `a` in order with values
overridden by `b` where present, then the keys of `b` not in `a`. -/
def mergeObjs (a b : Obj) : Obj :=
  (a.map fun p =>
    match b.find? (fun q => q.1 == p.1) with
    | some q => (p.1, q.2)
    | none => p)
  ++ b.filter (fun q => !(a.any (fun p => p.1 == q.1)))

/-- The `\s` character class of the email regex, on the ASCII characters
request bodies contain. -/
def wsChar (c : Char) : Bool :=
  c == ' ' || c == '\t' || c == '\n' || c == '\r' || c == '\x0b' || c == '\x0c'

/-- Split a character list on a separator character (the groups between
occurrences, like `String.splitOn` with a one-character separator). -/
def splitOnChar (sep : Char) : List Char → List (List Char)
  | [] => [[]]
  | c :: cs =>
    if c == sep then [] :: splitOnChar sep cs
    else
      match splitOnChar sep cs with
      | [] => [[c]]
      | g :: gs => (c :: g) :: gs

/-- `String.prototype.trim()` (JS whitespace stripped from both ends). -/
def jsTrim (l : List Char) : List Char :=
  ((l.dropWhile wsChar).reverse.dropWhile wsChar).reverse

/-- `isValidEmail`: implements the test of `/^[^\s@]+@[^\s@]+\.[^\s@]+$/`.
The string must contain exactly one `@` splitting it into two nonempty
whitespace-free parts, and the domain part must contain a dot that is
neither its first nor its last character. -/
def isValidEmail (email : String) : Bool :=
  match splitOnChar '@' email.toList with
  | [user, host] =>
      !user.isEmpty && !host.isEmpty &&
      user.all (fun c => !wsChar c) &&
      host.all (fun c => !wsChar c) &&
      ((host.drop 1).dropLast).contains '.'
  | _ => false

def isValidServiceType (ty : String) : Bool :=
  ["aerial_photography", "delivery", "agriculture_spraying", "surveillance",
   "inspection", "mapping", "other"].contains ty

/-- Days from the civil epoch 1970-01-01 (Gregorian calendar). -/
def daysFromCivil (y m d : Int) : Int :=
  let y := if m ≤ 2 then y - 1 else y
  let era := (if 0 ≤ y then y else y - 399) / 400
  let yoe := y - era * 400
  let doy := (153 * (if 2 < m then m - 3 else m + 9) + 2) / 5 + d - 1
  let doe := yoe * 365 + yoe / 4 - yoe / 100 + doy
  era * 146097 + doe - 719468

/-- Decimal digits to a number (`none` on empty or non-digit input). -/
def digitsToNat (l : List Char) : Option Nat :=
  if l.isEmpty then none
  else l.foldl (fun acc c =>
    acc.bind fun n => if c.isDigit then some (n * 10 + (c.toNat - 48)) else none) (some 0)

/-- Models the host `new Date(s)` constructor on the `YYYY-MM-DD` calendar
date format the request form submits (parsed as UTC midnight, value in epoch
milliseconds); other strings are treated as invalid dates. -/
def parseDateMs (s : String) : Option Int :=
  match splitOnChar '-' s.toList with
  | [ys, ms, ds] =>
      match digitsToNat ys, digitsToNat ms, digitsToNat ds with
      | some y, some m, some d =>
          if 1 ≤ m && m ≤ 12 && 1 ≤ d && d ≤ 31 then
            some (86400000 * daysFromCivil (Int.ofNat y) (Int.ofNat m) (Int.ofNat d))
          else none
      | _, _, _ => none
  | _ => none

/-- `isValidDate`: the parsed date is valid and strictly later than now
(`dateObj > new Date()`), with `now` in epoch milliseconds. -/
def isValidDate (s : String) (now : Nat) : Bool :=
  match parseDateMs s with
  | some t => decide ((now : Int) < t)
  | none => false

def isValidTime (t : String) : Bool :=
  ["morning", "afternoon", "evening"].contains t

/-- An absent field is falsy (`!field` rejects), otherwise the trimmed
length must reach the minimum. -/
def tooShort (f : Option String) (minLen : Nat) : Bool :=
  match f with
  | none => true
  | some s => (jsTrim s.toList).length < minLen

/-- An absent field is falsy, otherwise the check must pass. -/
def invalidBy (f : Option String) (ok : String → Bool) : Bool :=
  match f with
  | none => true
  | some s => !(ok s)

/-- The `validateRequest` middleware of `routes/requests.js`: the error list
accumulated over the eight field checks, in source order. -/
def validateRequest (now : Nat) (body : Obj) : List String :=
  (if tooShort (getField body "clientName") 2 then
    ["Client name is required and must be at least 2 characters"] else [])
  ++ (if invalidBy (getField body "email") isValidEmail then
    ["Valid email address is required"] else [])
  ++ (if tooShort (getField body "phone") 10 then
    ["Valid phone number is required"] else [])
  ++ (if invalidBy (getField body "serviceType") isValidServiceType then
    ["Valid service type is required"] else [])
  ++ (if tooShort (getField body "location") 10 then
    ["Detailed location is required"] else [])
  ++ (if invalidBy (getField body "preferredDate") (fun s => isValidDate s now) then
    ["Valid preferred date is required"] else [])
  ++ (if invalidBy (getField body "preferredTime") isValidTime then
    ["Valid preferred time is required"] else [])
  ++ (if tooShort (getField body "description") 20 then
    ["Detailed description is required (minimum 20 characters)"] else [])

/-- `String.prototype.padStart(n, c)`. -/
def padStart (s : String) (n : Nat) (c : Char) : String :=
  String.mk (List.replicate (n - s.length) c) ++ s

/-- `generateRequestId()`: `DR-<year>-<6-digit random>`, with the outcome of
`Math.floor(Math.random() * 1000000)` supplied as `rand`. -/
def generateRequestId (year rand : Nat) : String :=
  "DR-" ++ toString year ++ "-" ++ padStart (toString (rand % 1000000)) 6 '0'

/-- The data-store side of a route call: either the in-memory `mockRequests`
array, or the Supabase table (`rows`) together with whether the query the
handler issues fails with a connection/database error (`fail`). A failing
Supabase query makes the handler `throw`, which its `catch` turns into a
500 response. -/
inductive DataStore where
  | mock (store : List Obj)
  | supa (rows : List Obj) (fail : Bool)
  deriving DecidableEq, Repr

/-- Payload handed to `broadcastToClients` by the mutation handlers: the
affected record plus a summary message, or (for deletions) the identifier
plus a summary message. -/
inductive EventPayload where
  | record (request : Obj) (message : String)
  | ident (request_id : String) (message : String)
  deriving DecidableEq, Repr

/-- Outcome of one mutation route call: HTTP status, the
`broadcastToClients` invocations made (event type and payload, in order),
and the data store afterwards. -/
structure RouteResult where
  status : Nat
  broadcasts : List (String × EventPayload)
  store : DataStore
  deriving DecidableEq, Repr

/-- `findIndex` + in-place replacement of the first record matching `pred`
by `f` applied to it; `none` when no record matches (`findIndex === -1`). -/
def updateFirst (pred : Obj → Bool) (f : Obj → Obj) :
    List Obj → Option (List Obj × Obj)
  | [] => none
  | r :: rs =>
    if pred r then some (f r :: rs, f r)
    else match updateFirst pred f rs with
      | none => none
      | some (rs2, u) => some (r :: rs2, u)

/-- `findIndex` + `splice(index, 1)`: remove the first record matching
`pred`; `none` when no record matches. -/
def removeFirst (pred : Obj → Bool) : List Obj → Option (List Obj)
  | [] => none
  | r :: rs =>
    if pred r then some rs
    else match removeFirst pred rs with
      | none => none
      | some rs2 => some (r :: rs2)

/-- Row predicate used by the `:id` routes: `req.request_id === id`. -/
def matchesId (id : String) (r : Obj) : Bool :=
  getField r "request_id" == some id

/-- JS template interpolation of a possibly-undefined field. -/
def fieldStr (o : Obj) (k : String) : String :=
  (getField o k).getD "undefined"

/-- The `requestData` object built by `router.post('/')`: body spread with
`request_id` (the body's when truthy — the `||` treats the empty string as
falsy — otherwise generated), `status: pending` and fresh timestamps. -/
def postRequestData (iso : String) (year rand : Nat) (body : Obj) : Obj :=
  mergeObjs body
    [("request_id",
        match getField body "request_id" with
        | some v => if v = "" then generateRequestId year rand else v
        | none => generateRequestId year rand),
     ("status", "pending"), ("created_at", iso), ("updated_at", iso)]

/-- `router.post('/')` together with its validation middleware: validation
errors answer 400 before the handler runs; otherwise build `requestData`,
insert it, broadcast `request-created` once (when the SSE module loaded),
and answer 201; a failing Supabase insert is caught and answers 500 with no
broadcast. -/
def postRoute (now : Nat) (iso : String) (year rand : Nat) (sseLoaded : Bool)
    (body : Obj) (db : DataStore) : RouteResult :=
  if 0 < (validateRequest now body).length then
    ⟨400, [], db⟩
  else
    let requestData := postRequestData iso year rand body
    let bc := if sseLoaded then
        [("request-created", EventPayload.record requestData
          ("New service request: " ++ fieldStr requestData "request_id"))]
      else []
    match db with
    | .supa rows fail =>
        if fail then ⟨500, [], db⟩
        else ⟨201, bc, .supa (rows ++ [requestData]) false⟩
    | .mock store => ⟨201, bc, .mock (requestData :: store)⟩

/-- The update object of `router.put('/:id')`: body spread plus a fresh
`updated_at`, with the read-only `request_id` and `created_at` deleted. -/
def putUpdateData (iso : String) (body : Obj) : Obj :=
  removeField (removeField (mergeObjs body [("updated_at", iso)]) "request_id") "created_at"

/-- `router.put('/:id')`: apply `putUpdateData` to the first record whose
`request_id` matches. Not found answers 404 with no broadcast (Supabase
signals this by the `.single()` error `PGRST116`); a failing Supabase query
is caught and answers 500 with no broadcast; success broadcasts
`request-updated` once with the updated record and answers 200. -/
def putRoute (iso : String) (sseLoaded : Bool) (id : String) (body : Obj)
    (db : DataStore) : RouteResult :=
  let upd := putUpdateData iso body
  match db with
  | .supa rows fail =>
      if fail then ⟨500, [], db⟩
      else
        match updateFirst (matchesId id) (fun r => mergeObjs r upd) rows with
        | none => ⟨404, [], db⟩
        | some (rows2, u) =>
            let bc := if sseLoaded then
                [("request-updated", EventPayload.record u
                  ("Request " ++ fieldStr u "request_id" ++ " status updated to "
                    ++ fieldStr u "status"))]
              else []
            ⟨200, bc, .supa rows2 false⟩
  | .mock store =>
      match updateFirst (matchesId id) (fun r => mergeObjs r upd) store with
      | none => ⟨404, [], db⟩
      | some (store2, u) =>
          let bc := if sseLoaded then
              [("request-updated", EventPayload.record u
                ("Request " ++ fieldStr u "request_id" ++ " status updated to "
                  ++ fieldStr u "status"))]
            else []
          ⟨200, bc, .mock store2⟩

/-- `router.delete('/:id')`. The Supabase branch issues the delete and checks
only for a query error: deleting an id with no matching rows succeeds and is
followed by the broadcast. The mock branch answers 404 with no broadcast when
`findIndex` misses, else splices the record out and broadcasts
`request-deleted` once. -/
def deleteRoute (sseLoaded : Bool) (id : String) (db : DataStore) : RouteResult :=
  let bc := if sseLoaded then
      [("request-deleted", EventPayload.ident id ("Request " ++ id ++ " has been deleted"))]
    else []
  match db with
  | .supa rows fail =>
      if fail then ⟨500, [], db⟩
      else ⟨200, bc, .supa (rows.filter (fun r => !(matchesId id r))) false⟩
  | .mock store =>
      match removeFirst (matchesId id) store with
      | none => ⟨404, [], db⟩
      | some store2 => ⟨200, bc, .mock store2⟩

/-- Substring test over character lists (structural). -/
def hasSubList (pat : List Char) : List Char → Bool
  | [] => pat.isEmpty
  | c :: cs => pat.isPrefixOf (c :: cs) || hasSubList pat cs

/-- `s` contains `pat` as a substring. -/
def containsStr (s pat : String) : Bool :=
  hasSubList pat.toList s.toList

/-! ## Lemmas about the broadcast loop -/

lemma broadcastGo_fst (ty msg : String) (l : Registry) :
    (broadcastGo ty msg l).1 = l.filter deliverable := by
  induction l with
  | nil => rfl
  | cons c cs ih =>
    simp only [broadcastGo, List.filter, deliverable]
    cases h1 : c.response.present && !c.response.destroyed with
    | false => simp [h1, deliverable, ih]
    | true =>
      cases h2 : c.response.failsWrite with
      | false => simp [h1, h2, deliverable, ih]
      | true => simp [h1, h2, deliverable, ih]

lemma broadcastGo_chunks_not_mem (ty msg : String) (tok : Nat) (l : Registry)
    (h : tok ∉ l.map Client.token) :
    chunksTo tok (broadcastGo ty msg l).2 = [] := by
  induction l with
  | nil => rfl
  | cons c cs ih =>
    simp only [List.map_cons, List.mem_cons, not_or] at h
    obtain ⟨hne, hns⟩ := h
    simp only [broadcastGo]
    cases h1 : c.response.present && !c.response.destroyed with
    | false => exact ih hns
    | true =>
      cases h2 : c.response.failsWrite with
      | true => exact ih hns
      | false =>
        simp only [chunksTo]
        rw [if_neg (by exact fun hc => hne hc.symm), if_neg (by exact fun hc => hne hc.symm)]
        simpa using ih hns

lemma broadcastGo_chunks_mem (ty msg : String) (c : Client) (l : Registry)
    (hmem : c ∈ l) (hdel : deliverable c = true)
    (hnd : (l.map Client.token).Nodup) :
    chunksTo c.token (broadcastGo ty msg l).2 = sseFrameChunks ty msg := by
  induction l with
  | nil => cases hmem
  | cons d ds ih =>
    rw [List.map_cons, List.nodup_cons] at hnd
    obtain ⟨hd, hnds⟩ := hnd
    rcases List.mem_cons.mp hmem with rfl | hmem2
    · unfold deliverable at hdel
      rw [Bool.and_eq_true] at hdel
      obtain ⟨h1, h2⟩ := hdel
      rw [Bool.not_eq_true'] at h2
      simp only [broadcastGo]
      rw [if_pos h1, if_neg (by simp [h2])]
      simp only [chunksTo, if_pos rfl]
      rw [broadcastGo_chunks_not_mem ty msg c.token ds hd]
      rfl
    · have hne : d.token ≠ c.token := by
        intro he
        exact hd (he ▸ List.mem_map_of_mem Client.token hmem2)
      have ihr := ih hmem2 hnds
      simp only [broadcastGo]
      by_cases h1 : (d.response.present && !d.response.destroyed) = true
      · rw [if_pos h1]
        by_cases h2 : d.response.failsWrite = true
        · rw [if_pos h2]; exact ihr
        · rw [if_neg h2]
          simp only [chunksTo, if_neg hne]
          simpa using ihr
      · rw [if_neg h1]; exact ihr

/-! ## Lemmas about the reaper loop -/

lemma cleanupGo_fst (now : Nat) (l : Registry) :
    (cleanupGo now l).1 = l.filter (fun c => !decide (staleTimeout < now - c.lastPing)) := by
  induction l with
  | nil => rfl
  | cons c cs ih =>
    simp only [cleanupGo, List.filter]
    by_cases h : staleTimeout < now - c.lastPing
    · simp [h, ih]
    · simp [h, ih]

lemma cleanupGo_end_mem (now : Nat) (c : Client) (l : Registry)
    (hmem : c ∈ l) (hstale : staleTimeout < now - c.lastPing)
    (hopen : (c.response.present && !c.response.destroyed) = true) :
    Action.endCall c.token ∈ (cleanupGo now l).2 := by
  induction l with
  | nil => cases hmem
  | cons d ds ih =>
    rcases List.mem_cons.mp hmem with rfl | hmem2
    · simp [cleanupGo, hstale, hopen]
    · simp only [cleanupGo]
      by_cases h : staleTimeout < now - d.lastPing
      · simp only [if_pos h]
        exact List.mem_append_right _ (ih hmem2)
      · simpa [h] using ih hmem2

lemma cleanupGo_acts (now : Nat) (l : Registry) (a : Action)
    (ha : a ∈ (cleanupGo now l).2) :
    ∃ c, c ∈ l ∧ staleTimeout < now - c.lastPing
      ∧ (c.response.present && !c.response.destroyed) = true
      ∧ a = Action.endCall c.token := by
  induction l with
  | nil => cases ha
  | cons d ds ih =>
    simp only [cleanupGo] at ha
    by_cases h : staleTimeout < now - d.lastPing
    · rw [if_pos h] at ha
      rcases List.mem_append.mp ha with h1 | h2
      · by_cases hop : (d.response.present && !d.response.destroyed) = true
        · rw [if_pos hop] at h1
          rcases List.mem_singleton.mp h1 with rfl
          exact ⟨d, List.mem_cons_self _ _, h, hop, rfl⟩
        · rw [if_neg hop] at h1; cases h1
      · obtain ⟨c, hc, h3, h4, h5⟩ := ih h2
        exact ⟨c, List.mem_cons_of_mem _ hc, h3, h4, h5⟩
    · rw [if_neg h] at ha
      obtain ⟨c, hc, h3, h4, h5⟩ := ih ha
      exact ⟨c, List.mem_cons_of_mem _ hc, h3, h4, h5⟩

/-! ## Lemmas about registry runs -/

lemma regops_ids_sublist (ops : List RegOp) : ∀ r : Registry,
    ((ops.foldl applyRegOp r).map Client.id).Sublist (r.map Client.id ++ admitTimes ops) := by
  induction ops with
  | nil => intro r; simp [admitTimes]
  | cons op ops ih =>
    intro r
    cases op with
    | admitOp now tok =>
      have h := ih (applyRegOp r (.admitOp now tok))
      simp only [applyRegOp, admitClient, List.map_append, List.map_cons, List.map_nil] at h
      simp only [List.foldl_cons, admitTimes, List.filterMap_cons]
      rw [List.append_assoc] at h
      simpa [admitTimes] using h
    | removeOp tok =>
      have h := ih (r.filter (fun d => d.token != tok))
      have hsub : ((r.filter (fun d => d.token != tok)).map Client.id).Sublist (r.map Client.id) :=
        (List.filter_sublist r).map Client.id
      simp only [List.foldl_cons, applyRegOp, admitTimes, List.filterMap_cons]
      exact h.trans (hsub.append_right (admitTimes ops))

/-! ## Claim theorems -/

/-- Claim C1: `broadcastToClients` attempts delivery to every connection in
the registry at call time: every connection whose sink is open and whose
write does not throw receives exactly the event frame; a connection whose
write throws (or whose sink is gone) does not abort delivery to the others
and is removed from the registry before the call returns (the survivors are
exactly the deliverable connections, unchanged); the function is total — the
`catch` keeps any write exception from propagating — and on an empty
registry it returns normally having written nothing. -/
theorem claim_C1_broadcast_isolation (ty : String) (data : Json) (iso : String)
    (r : Registry) (hnd : (r.map Client.token).Nodup) :
    ((broadcastToClients ty data iso r).1 = r.filter deliverable)
    ∧ (∀ c ∈ r, deliverable c = true →
        chunksTo c.token (broadcastToClients ty data iso r).2
          = sseFrameChunks ty (broadcastMessage ty data iso))
    ∧ (∀ c ∈ r, deliverable c = false → c ∉ (broadcastToClients ty data iso r).1)
    ∧ broadcastToClients ty data iso [] = ([], []) := by
  refine ⟨broadcastGo_fst ty (broadcastMessage ty data iso) r, ?_, ?_, rfl⟩
  · intro c hc hdel
    exact broadcastGo_chunks_mem ty (broadcastMessage ty data iso) c r hc hdel hnd
  · intro c _ hdel hmem
    have hmem2 : c ∈ r.filter deliverable := by
      rw [← broadcastGo_fst ty (broadcastMessage ty data iso) r]; exact hmem
    have := List.of_mem_filter hmem2
    rw [hdel] at this
    cases this

theorem claim_C1_witness :
    (([⟨0, 1, ⟨true, false, false⟩, 5⟩, ⟨1, 2, ⟨true, false, true⟩, 5⟩] : Registry).map
        Client.token).Nodup
    ∧ (broadcastToClients "request-updated" (Json.obj []) "t"
        [⟨0, 1, ⟨true, false, false⟩, 5⟩, ⟨1, 2, ⟨true, false, true⟩, 5⟩]).1
      = [⟨0, 1, ⟨true, false, false⟩, 5⟩] := by
  refine ⟨by decide, ?_⟩
  have h := claim_C1_broadcast_isolation "request-updated" (Json.obj []) "t"
    [⟨0, 1, ⟨true, false, false⟩, 5⟩, ⟨1, 2, ⟨true, false, true⟩, 5⟩] (by decide)
  rw [h.1]; decide

/-- Claim C3 counterexample: two admissions in the same millisecond both use
that millisecond's `Date.now()` as `id`, so the registry reaches a state
holding two distinct connections with equal ids: after
`admit` at time 100 (token 0) and `admit` at time 100 (token 1) both clients
are registered, they are distinct objects, and id-pairwise-distinctness
fails. -/
theorem claim_C3_counterexample :
    (runRegOps [RegOp.admitOp 100 0, RegOp.admitOp 100 1]).length = 2
    ∧ (runRegOps [RegOp.admitOp 100 0, RegOp.admitOp 100 1]).Nodup
    ∧ ¬ List.Pairwise (fun c d => c.id ≠ d.id)
        (runRegOps [RegOp.admitOp 100 0, RegOp.admitOp 100 1]) := by
  refine ⟨by decide, by decide, by decide⟩

/-- Claim C3 (amended): in every registry state reachable by admissions and
removals in which all admissions carried pairwise-distinct `Date.now()`
values, the ids of the registered connections are pairwise distinct.
(The code takes `id = Date.now()`, so uniqueness holds exactly when no two
admissions share a millisecond timestamp.) -/
theorem claim_C3_amended (ops : List RegOp) (h : (admitTimes ops).Nodup) :
    ((runRegOps ops).map Client.id).Nodup := by
  have hsub := regops_ids_sublist ops []
  simp only [List.map_nil, List.nil_append] at hsub
  exact h.sublist hsub

theorem claim_C3_amended_witness :
    (admitTimes [RegOp.admitOp 100 0, RegOp.admitOp 101 1]).Nodup
    ∧ ((runRegOps [RegOp.admitOp 100 0, RegOp.admitOp 101 1]).map Client.id).Nodup :=
  ⟨by decide, claim_C3_amended [RegOp.admitOp 100 0, RegOp.admitOp 101 1] (by decide)⟩

/-- Claim C4: one reaper pass (`cleanupConnections`) removes exactly the
connections whose `lastPing` age strictly exceeds the 5-minute staleness
threshold; each removed connection with a present, non-destroyed sink has
`response.end()` called; every fresh connection survives unchanged; the
pass writes no data to any sink, and (given distinct tokens) closes no
fresh connection's sink. -/
theorem claim_C4_reaper_pass (now : Nat) (r : Registry)
    (hnd : (r.map Client.token).Nodup) :
    ((cleanupConnections now r).1
        = r.filter (fun c => !decide (staleTimeout < now - c.lastPing)))
    ∧ (∀ c ∈ r, staleTimeout < now - c.lastPing →
        c ∉ (cleanupConnections now r).1
        ∧ ((c.response.present && !c.response.destroyed) = true →
            Action.endCall c.token ∈ (cleanupConnections now r).2))
    ∧ (∀ c ∈ r, ¬ staleTimeout < now - c.lastPing → c ∈ (cleanupConnections now r).1)
    ∧ (∀ tok s, Action.write tok s ∉ (cleanupConnections now r).2)
    ∧ (∀ c ∈ r, ¬ staleTimeout < now - c.lastPing →
        Action.endCall c.token ∉ (cleanupConnections now r).2) := by
  refine ⟨cleanupGo_fst now r, ?_, ?_, ?_, ?_⟩
  · intro c hc hstale
    constructor
    · intro hmem
      have hmem2 : c ∈ r.filter (fun c => !decide (staleTimeout < now - c.lastPing)) := by
        rw [← cleanupGo_fst now r]; exact hmem
      have := List.of_mem_filter hmem2
      simp [hstale] at this
    · intro hopen
      exact cleanupGo_end_mem now c r hc hstale hopen
  · intro c hc hfresh
    show c ∈ (cleanupGo now r).1
    rw [cleanupGo_fst now r]
    exact List.mem_filter_of_mem hc (by simpa using hfresh)
  · intro tok s hmem
    obtain ⟨c, _, _, _, heq⟩ := cleanupGo_acts now r _ hmem
    cases heq
  · intro c hc hfresh hmem
    obtain ⟨d, hdm, hstale, _, heq⟩ := cleanupGo_acts now r _ hmem
    have htok : d.token = c.token := by
      injection heq with h; exact h.symm
    have : d = c := by
      have h1 := List.mem_map_of_mem Client.token hdm
      have h2 := List.mem_map_of_mem Client.token hc
      exact List.inj_on_of_nodup_map hnd hdm hc htok
    exact hfresh (this ▸ hstale)

theorem claim_C4_witness :
    (([⟨0, 1, ⟨true, false, false⟩, 0⟩, ⟨1, 2, ⟨true, false, false⟩, 400000⟩] : Registry).map
        Client.token).Nodup
    ∧ (cleanupConnections 400001
        [⟨0, 1, ⟨true, false, false⟩, 0⟩, ⟨1, 2, ⟨true, false, false⟩, 400000⟩]).1
      = [⟨1, 2, ⟨true, false, false⟩, 400000⟩]
    ∧ Action.endCall 0 ∈ (cleanupConnections 400001
        [⟨0, 1, ⟨true, false, false⟩, 0⟩, ⟨1, 2, ⟨true, false, false⟩, 400000⟩]).2 := by
  have h := claim_C4_reaper_pass 400001
    [⟨0, 1, ⟨true, false, false⟩, 0⟩, ⟨1, 2, ⟨true, false, false⟩, 400000⟩] (by decide)
  refine ⟨by decide, ?_, ?_⟩
  · rw [h.1]; decide
  · exact ((h.2.1 ⟨0, 1, ⟨true, false, false⟩, 0⟩ (by decide) (by decide)).2 (by decide))

/-- Claim C5: one heartbeat interval tick for connection `c`: if the write
succeeds, exactly one frame — the `heartbeat`-typed data frame — is written
to `c` and `c`'s `lastPing` is set to the tick's `Date.now()`, which (the
clock being monotone, `c.lastPing ≤ now`) never decreases it; if the write
throws, the exception is caught inside the callback, the interval is
cleared, and `c` is removed from the registry at once — before any next
heartbeat cycle. -/
theorem claim_C5_heartbeat_tick (now : Nat) (iso : String) (c : Client)
    (r : Registry) (hc : c ∈ r) (hmono : c.lastPing ≤ now) :
    (c.response.failsWrite = false →
      (heartbeatTick now iso c r).actions = [Action.write c.token (heartbeatFrame iso)]
      ∧ { c with lastPing := now } ∈ (heartbeatTick now iso c r).registry
      ∧ c.lastPing ≤ ({ c with lastPing := now } : Client).lastPing
      ∧ (heartbeatTick now iso c r).intervalCleared = false)
    ∧ (c.response.failsWrite = true →
      (heartbeatTick now iso c r).registry = removeClient c r
      ∧ (∀ d ∈ (heartbeatTick now iso c r).registry, d.token ≠ c.token)
      ∧ (heartbeatTick now iso c r).actions = []
      ∧ (heartbeatTick now iso c r).intervalCleared = true) := by
  constructor
  · intro hok
    unfold heartbeatTick
    rw [if_neg (by simp [hok])]
    refine ⟨rfl, ?_, hmono, rfl⟩
    have : ({ c with lastPing := now } : Client)
        = (fun d => if d.token == c.token then { d with lastPing := now } else d) c := by
      simp
    rw [this]
    exact List.mem_map_of_mem _ hc
  · intro hfail
    unfold heartbeatTick
    rw [if_pos hfail]
    refine ⟨rfl, ?_, rfl, rfl⟩
    intro d hd
    have := List.of_mem_filter hd
    simpa using this

theorem claim_C5_witness :
    (⟨7, 3, ⟨true, false, false⟩, 10⟩ : Client) ∈
        ([⟨7, 3, ⟨true, false, false⟩, 10⟩] : Registry)
    ∧ (10 : Nat) ≤ 50
    ∧ (heartbeatTick 50 "iso" ⟨7, 3, ⟨true, false, false⟩, 10⟩
        [⟨7, 3, ⟨true, false, false⟩, 10⟩]).actions
      = [Action.write 7 (heartbeatFrame "iso")] := by
  refine ⟨by decide, by decide, ?_⟩
  exact ((claim_C5_heartbeat_tick 50 "iso" ⟨7, 3, ⟨true, false, false⟩, 10⟩
    [⟨7, 3, ⟨true, false, false⟩, 10⟩] (by decide) (by decide)).1 rfl).1

/-- Claim C6: for every broadcast and every connection it successfully
delivers to, the chunks written to that connection are exactly the
`event: <type>` line followed by the `data: <json>` line, where the JSON is
the object with `type` the event type string, `data` the payload, and
`timestamp` the ISO string captured at dispatch time, serialised in that
field order. (The concrete `request-created` / `DR-2024-000001` scenario is
exercised in the witness.) -/
theorem claim_C6_frame_format (ty : String) (data : Json) (iso : String)
    (r : Registry) (c : Client) (hc : c ∈ r) (hdel : deliverable c = true)
    (hnd : (r.map Client.token).Nodup) :
    chunksTo c.token (broadcastToClients ty data iso r).2
      = ["event: " ++ ty ++ "\n",
         "data: " ++ Json.render (Json.obj
            [("type", Json.str ty), ("data", data), ("timestamp", Json.str iso)]) ++ "\n\n"] :=
  broadcastGo_chunks_mem ty (broadcastMessage ty data iso) c r hc hdel hnd

set_option maxRecDepth 8000 in
theorem claim_C6_witness :
    (⟨5, 99, ⟨true, false, false⟩, 99⟩ : Client) ∈
        ([⟨5, 99, ⟨true, false, false⟩, 99⟩] : Registry)
    ∧ deliverable ⟨5, 99, ⟨true, false, false⟩, 99⟩ = true
    ∧ (([⟨5, 99, ⟨true, false, false⟩, 99⟩] : Registry).map Client.token).Nodup
    ∧ chunksTo 5 (broadcastToClients "request-created"
        (Json.obj [("request", Json.obj [("request_id", Json.str "DR-2024-000001")]),
                   ("message", Json.str "New service request: DR-2024-000001")])
        "2024-01-01T00:00:00.000Z"
        [⟨5, 99, ⟨true, false, false⟩, 99⟩]).2
      = ["event: request-created\n",
         "data: \x7b\"type\":\"request-created\",\"data\":\x7b\"request\":\x7b\"request_id\":\"DR-2024-000001\"\x7d,\"message\":\"New service request: DR-2024-000001\"\x7d,\"timestamp\":\"2024-01-01T00:00:00.000Z\"\x7d\n\n"]
    ∧ containsStr
        "data: \x7b\"type\":\"request-created\",\"data\":\x7b\"request\":\x7b\"request_id\":\"DR-2024-000001\"\x7d,\"message\":\"New service request: DR-2024-000001\"\x7d,\"timestamp\":\"2024-01-01T00:00:00.000Z\"\x7d\n\n"
        "DR-2024-000001" = true := by
  refine ⟨by decide, by decide, by decide, ?_, by decide⟩
  rw [claim_C6_frame_format "request-created"
    (Json.obj [("request", Json.obj [("request_id", Json.str "DR-2024-000001")]),
               ("message", Json.str "New service request: DR-2024-000001")])
    "2024-01-01T00:00:00.000Z"
    [⟨5, 99, ⟨true, false, false⟩, 99⟩] ⟨5, 99, ⟨true, false, false⟩, 99⟩
    (by decide) (by decide) (by decide)]
  decide

/-- Claim C7 counterexample: `getConnectionStats` counts a connection as
stale once its `lastPing` age exceeds 60 seconds, not the 5-minute staleness
threshold that triggers forced eviction: a connection aged 2 minutes is
counted (`oldConnections = 1`) yet the reaper pass at the same instant
leaves it registered, so "stale iff age exceeds the eviction threshold"
fails. -/
theorem claim_C7_counterexample :
    getConnectionStats 120000 [⟨0, 1, ⟨true, false, false⟩, 0⟩] = ⟨1, 1, 1⟩
    ∧ (cleanupConnections 120000 [⟨0, 1, ⟨true, false, false⟩, 0⟩]).1
        = [⟨0, 1, ⟨true, false, false⟩, 0⟩]
    ∧ (getConnectionStats 120000 [⟨0, 1, ⟨true, false, false⟩, 0⟩]).oldConnections
        ≠ (([⟨0, 1, ⟨true, false, false⟩, 0⟩] : Registry).filter
            (fun c => decide (staleTimeout < 120000 - c.lastPing))).length := by
  refine ⟨by decide, by decide, by decide⟩

/-- Claim C7 (amended): `getConnectionStats` returns the total number of
registered connections, the number whose sink is still open, and the number
whose `lastPing` age exceeds a fixed 60-second threshold — a threshold
distinct from (and smaller than) the 5-minute eviction threshold, so every
connection old enough for the reaper to evict is included in the stale
count. -/
theorem claim_C7_amended (now : Nat) (r : Registry) :
    (getConnectionStats now r).totalConnections = r.length
    ∧ (getConnectionStats now r).activeConnections
        = (r.filter (fun c => c.response.present && !c.response.destroyed)).length
    ∧ (getConnectionStats now r).oldConnections
        = (r.filter (fun c => decide (60000 < now - c.lastPing))).length
    ∧ (r.filter (fun c => decide (staleTimeout < now - c.lastPing))).length
        ≤ (getConnectionStats now r).oldConnections := by
  refine ⟨rfl, rfl, rfl, ?_⟩
  have hmono : ∀ c : Client,
      (fun c : Client => decide (staleTimeout < now - c.lastPing)) c = true →
      (fun c : Client => decide (60000 < now - c.lastPing)) c = true := by
    intro c hc
    simp only [decide_eq_true_eq] at hc ⊢
    exact lt_trans (by norm_num [staleTimeout]) hc
  exact (List.monotone_filter_right r hmono).length_le

/-- Claim C8 counterexample: a broadcast write failure removes the
connection from the registry without any `response.end()` call — the call
returns the empty registry and an empty action list, so this removal
performed no closure of the sink. -/
theorem claim_C8_counterexample :
    broadcastToClients "request-updated" (Json.obj []) "t"
      [⟨0, 1, ⟨true, false, true⟩, 0⟩] = ([], []) := by
  decide

/-- Claim C8 (amended): only the stale-connection reaper closes sinks: a
reaper removal of a stale open-sink connection calls `response.end()`, but
removals triggered by subscriber disconnect or transport error
(`onDisconnect`), by a heartbeat write failure, or by a broadcast write
failure discard the registry entry without closing the underlying sink (no
`end` action is ever emitted by those paths). -/
theorem claim_C8_amended :
    (∀ now (r : Registry) c, c ∈ r → staleTimeout < now - c.lastPing →
      (c.response.present && !c.response.destroyed) = true →
      Action.endCall c.token ∈ (cleanupConnections now r).2)
    ∧ (∀ ty data iso (r : Registry) tok,
        Action.endCall tok ∉ (broadcastToClients ty data iso r).2)
    ∧ (∀ now iso c (r : Registry) tok,
        Action.endCall tok ∉ (heartbeatTick now iso c r).actions)
    ∧ (∀ c (r : Registry), (onDisconnect c r).2 = []) := by
  refine ⟨?_, ?_, ?_, fun _ _ => rfl⟩
  · intro now r c hc hstale hopen
    exact cleanupGo_end_mem now c r hc hstale hopen
  · intro ty data iso r tok hmem
    induction r with
    | nil => cases hmem
    | cons c cs ih =>
      simp only [broadcastToClients, broadcastGo] at hmem ih
      by_cases h1 : (c.response.present && !c.response.destroyed) = true
      · rw [if_pos h1] at hmem
        by_cases h2 : c.response.failsWrite = true
        · rw [if_pos h2] at hmem; exact ih hmem
        · rw [if_neg h2] at hmem
          rcases List.mem_cons.mp hmem with h | h
          · cases h
          · rcases List.mem_cons.mp h with h' | h'
            · cases h'
            · exact ih h'
      · rw [if_neg h1] at hmem; exact ih hmem
  · intro now iso c r tok hmem
    unfold heartbeatTick at hmem
    by_cases hf : c.response.failsWrite = true
    · rw [if_pos hf] at hmem; cases hmem
    · rw [if_neg hf] at hmem
      rcases List.mem_cons.mp hmem with h | h
      · cases h
      · cases h

theorem claim_C8_amended_witness :
    (⟨0, 1, ⟨true, false, false⟩, 0⟩ : Client) ∈
        ([⟨0, 1, ⟨true, false, false⟩, 0⟩] : Registry)
    ∧ staleTimeout < 400001 - (0 : Nat)
    ∧ Action.endCall 0 ∈
        (cleanupConnections 400001 [⟨0, 1, ⟨true, false, false⟩, 0⟩]).2 := by
  refine ⟨by decide, by decide, ?_⟩
  exact claim_C8_amended.1 400001 [⟨0, 1, ⟨true, false, false⟩, 0⟩]
    ⟨0, 1, ⟨true, false, false⟩, 0⟩ (by decide) (by decide) (by decide)

/-- Claim C9: registry removal is idempotent and total: deleting a client
twice leaves the registry as deleting it once, and deleting a client whose
token is absent is a no-op returning the registry unchanged (the operation
is a total function — it raises no error). -/
theorem claim_C9_remove_idempotent (c : Client) (r : Registry) :
    removeClient c (removeClient c r) = removeClient c r
    ∧ (c.token ∉ r.map Client.token → removeClient c r = r) := by
  constructor
  · simp [removeClient, List.filter_filter]
  · intro habs
    unfold removeClient
    rw [List.filter_eq_self]
    intro d hd
    simp only [bne_iff_ne, ne_eq, decide_eq_true_eq]
    intro he
    exact habs (he ▸ List.mem_map_of_mem Client.token hd)

theorem claim_C9_witness :
    (1 : Nat) ∉ ([⟨0, 5, ⟨true, false, false⟩, 0⟩] : Registry).map Client.token
    ∧ removeClient ⟨1, 6, ⟨true, false, false⟩, 0⟩ [⟨0, 5, ⟨true, false, false⟩, 0⟩]
        = [⟨0, 5, ⟨true, false, false⟩, 0⟩] :=
  ⟨by decide,
   (claim_C9_remove_idempotent ⟨1, 6, ⟨true, false, false⟩, 0⟩
      [⟨0, 5, ⟨true, false, false⟩, 0⟩]).2 (by decide)⟩

/-! ## Lemmas about object merging and the mutation routes -/

lemma getField_filter_none (b : Obj) (h : String × String → Bool) (k : String)
    (hb : getField b k = none) : getField (b.filter h) k = none := by
  induction b with
  | nil => rfl
  | cons p ps ih =>
    unfold getField at hb ⊢
    simp only [List.find?] at hb
    by_cases hpk : (p.1 == k) = true
    · rw [hpk] at hb; cases hb
    · rw [Bool.not_eq_true] at hpk
      rw [hpk] at hb
      simp only [List.filter]
      by_cases hh : h p = true
      · rw [hh]
        simp only [List.find?, hpk]
        exact ih hb
      · rw [Bool.not_eq_true] at hh
        rw [hh]
        exact ih hb

lemma getField_append (a b : Obj) (k : String) :
    getField (a ++ b) k
      = match getField a k with
        | some v => some v
        | none => getField b k := by
  induction a with
  | nil => simp [getField]
  | cons p ps ih =>
    unfold getField at ih ⊢
    simp only [List.cons_append, List.find?]
    by_cases hpk : (p.1 == k) = true
    · rw [hpk]; rfl
    · rw [Bool.not_eq_true] at hpk
      rw [hpk]
      exact ih

lemma getField_override_map (a b : Obj) (k : String) (hb : getField b k = none) :
    getField (a.map fun p =>
      match b.find? (fun q => q.1 == p.1) with
      | some q => (p.1, q.2)
      | none => p) k = getField a k := by
  induction a with
  | nil => rfl
  | cons p ps ih =>
    have hgp : (match b.find? (fun q : String × String => q.1 == p.1) with
                | some q => (p.1, q.2)
                | none => p).1 = p.1 := by
      cases b.find? (fun q : String × String => q.1 == p.1) <;> rfl
    unfold getField at ih ⊢
    simp only [List.map_cons, List.find?, hgp]
    by_cases hpk : (p.1 == k) = true
    · simp only [hpk]
      have hk : p.1 = k := by simpa using hpk
      have hfind : b.find? (fun q => q.1 == p.1) = none := by
        unfold getField at hb
        rw [hk]
        cases hf : b.find? (fun q => q.1 == k) with
        | none => rfl
        | some q => rw [hf] at hb; cases hb
      rw [hfind]
    · rw [Bool.not_eq_true] at hpk
      simp only [hpk]
      exact ih

/-- A key absent from `b` keeps its `a`-value across the spread `mergeObjs a b`. -/
lemma getField_mergeObjs_of_none (a b : Obj) (k : String) (hb : getField b k = none) :
    getField (mergeObjs a b) k = getField a k := by
  unfold mergeObjs
  rw [getField_append, getField_override_map a b k hb,
    getField_filter_none b _ k hb]
  cases getField a k <;> rfl

lemma getField_removeField_self (o : Obj) (k : String) :
    getField (removeField o k) k = none := by
  induction o with
  | nil => rfl
  | cons p ps ih =>
    unfold removeField getField at ih ⊢
    simp only [List.filter]
    by_cases hpk : (p.1 == k) = true
    · have : (p.1 != k) = false := by simpa [bne] using hpk
      rw [this]
      exact ih
    · have hne : (p.1 != k) = true := by simpa [bne] using hpk
      rw [Bool.not_eq_true] at hpk
      rw [hne]
      simp only [List.find?, hpk]
      exact ih

/-- `putUpdateData` carries neither `request_id` nor `created_at`. -/
lemma putUpdateData_readonly_none (iso : String) (body : Obj) :
    getField (putUpdateData iso body) "request_id" = none
    ∧ getField (putUpdateData iso body) "created_at" = none := by
  constructor
  · unfold putUpdateData removeField
    exact getField_filter_none _ _ _ (getField_removeField_self _ _)
  · exact getField_removeField_self _ _

lemma updateFirst_some {pred : Obj → Bool} {f : Obj → Obj} :
    ∀ {l l2 : List Obj} {u : Obj}, updateFirst pred f l = some (l2, u) →
      ∃ r, r ∈ l ∧ pred r = true ∧ u = f r := by
  intro l
  induction l with
  | nil => intro l2 u h; cases h
  | cons r rs ih =>
    intro l2 u h
    unfold updateFirst at h
    by_cases hp : pred r = true
    · rw [if_pos hp] at h
      injection h with h'
      injection h' with h1 h2
      exact ⟨r, List.mem_cons_self _ _, hp, h2.symm⟩
    · rw [if_neg hp] at h
      cases hrec : updateFirst pred f rs with
      | none => rw [hrec] at h; cases h
      | some pr =>
        rw [hrec] at h
        obtain ⟨rs2, u2⟩ := pr
        injection h with h'
        injection h' with h1 h2
        obtain ⟨r', hr1, hr2, hr3⟩ := ih hrec
        exact ⟨r', List.mem_cons_of_mem _ hr1, hr2, h2 ▸ hr3⟩

lemma updateFirst_forall₂ {R : Obj → Obj → Prop} {pred : Obj → Bool} {f : Obj → Obj}
    (hrefl : ∀ r, R r r) (hf : ∀ r, R r (f r)) :
    ∀ {l l2 : List Obj} {u : Obj}, updateFirst pred f l = some (l2, u) →
      List.Forall₂ R l l2 := by
  intro l
  induction l with
  | nil => intro l2 u h; cases h
  | cons r rs ih =>
    intro l2 u h
    unfold updateFirst at h
    by_cases hp : pred r = true
    · rw [if_pos hp] at h
      injection h with h'
      injection h' with h1 h2
      rw [← h1]
      exact List.Forall₂.cons (hf r) (List.forall₂_same.mpr fun x _ => hrefl x)
    · rw [if_neg hp] at h
      cases hrec : updateFirst pred f rs with
      | none => rw [hrec] at h; cases h
      | some pr =>
        rw [hrec] at h
        obtain ⟨rs2, u2⟩ := pr
        injection h with h'
        injection h' with h1 h2
        rw [← h1]
        exact List.Forall₂.cons (hrefl r) (ih hrec)

/-- A later record preserves the earlier record's read-only fields. -/
def preservesReadOnly (a b : Obj) : Prop :=
  getField b "request_id" = getField a "request_id"
  ∧ getField b "created_at" = getField a "created_at"

/-- A valid request body (the example from the repository's documentation). -/
def sampleBody : Obj :=
  [("clientName", "John Smith"),
   ("email", "john@example.com"),
   ("phone", "(555) 123-4567"),
   ("serviceType", "aerial_photography"),
   ("location", "123 Main St, City, State"),
   ("preferredDate", "2024-01-15"),
   ("preferredTime", "morning"),
   ("priority", "normal"),
   ("description", "Aerial photography for real estate")]

/-- Claim C10: `router.put('/:id')` deletes `request_id` and `created_at`
from the update payload before applying it, so whatever values the request
body supplies for them, every stored record's `request_id` and `created_at`
after the call equal their values before the call — in both the mock branch
and the Supabase branch, for every outcome of the route. -/
theorem claim_C10_put_readonly (iso : String) (sse : Bool) (id : String) (body : Obj) :
    (∀ store store2 st bc,
        putRoute iso sse id body (.mock store) = ⟨st, bc, .mock store2⟩ →
        List.Forall₂ preservesReadOnly store store2)
    ∧ (∀ rows fail rows2 fail2 st bc,
        putRoute iso sse id body (.supa rows fail) = ⟨st, bc, .supa rows2 fail2⟩ →
        List.Forall₂ preservesReadOnly rows rows2) := by
  have hrefl : ∀ r : Obj, preservesReadOnly r r := fun r => ⟨rfl, rfl⟩
  have hR : ∀ r : Obj, preservesReadOnly r (mergeObjs r (putUpdateData iso body)) := by
    intro r
    obtain ⟨h1, h2⟩ := putUpdateData_readonly_none iso body
    exact ⟨getField_mergeObjs_of_none r _ _ h1, getField_mergeObjs_of_none r _ _ h2⟩
  constructor
  · intro store store2 st bc h
    simp only [putRoute] at h
    cases hu : updateFirst (matchesId id)
        (fun r => mergeObjs r (putUpdateData iso body)) store with
    | none =>
      rw [hu] at h
      injection h with h1 h2 h3
      injection h3 with h4
      rw [← h4]
      exact List.forall₂_same.mpr fun x _ => hrefl x
    | some pr =>
      obtain ⟨store2', u⟩ := pr
      rw [hu] at h
      injection h with h1 h2 h3
      injection h3 with h4
      rw [← h4]
      exact updateFirst_forall₂ hrefl hR hu
  · intro rows fail rows2 fail2 st bc h
    simp only [putRoute] at h
    cases fail with
    | true =>
      rw [if_pos rfl] at h
      injection h with h1 h2 h3
      injection h3 with h4
      rw [← h4]
      exact List.forall₂_same.mpr fun x _ => hrefl x
    | false =>
      rw [if_neg (by simp)] at h
      cases hu : updateFirst (matchesId id)
          (fun r => mergeObjs r (putUpdateData iso body)) rows with
      | none =>
        rw [hu] at h
        injection h with h1 h2 h3
        injection h3 with h4
        rw [← h4]
        exact List.forall₂_same.mpr fun x _ => hrefl x
      | some pr =>
        obtain ⟨rows2', u⟩ := pr
        rw [hu] at h
        injection h with h1 h2 h3
        injection h3 with h4
        rw [← h4]
        exact updateFirst_forall₂ hrefl hR hu

theorem claim_C10_witness :
    putRoute "T2" true "DR-1" [("request_id", "HACK"), ("created_at", "EVIL"), ("status", "done")]
        (DataStore.mock [[("request_id", "DR-1"), ("created_at", "C"), ("status", "pending")]])
      = ⟨200,
         [("request-updated", EventPayload.record
            [("request_id", "DR-1"), ("created_at", "C"), ("status", "done"), ("updated_at", "T2")]
            "Request DR-1 status updated to done")],
         DataStore.mock
           [[("request_id", "DR-1"), ("created_at", "C"), ("status", "done"), ("updated_at", "T2")]]⟩
    ∧ List.Forall₂ preservesReadOnly
        [[("request_id", "DR-1"), ("created_at", "C"), ("status", "pending")]]
        [[("request_id", "DR-1"), ("created_at", "C"), ("status", "done"), ("updated_at", "T2")]] := by
  refine ⟨by decide, ?_⟩
  exact (claim_C10_put_readonly "T2" true "DR-1"
      [("request_id", "HACK"), ("created_at", "EVIL"), ("status", "done")]).1
    [[("request_id", "DR-1"), ("created_at", "C"), ("status", "pending")]]
    [[("request_id", "DR-1"), ("created_at", "C"), ("status", "done"), ("updated_at", "T2")]]
    200
    [("request-updated", EventPayload.record
        [("request_id", "DR-1"), ("created_at", "C"), ("status", "done"), ("updated_at", "T2")]
        "Request DR-1 status updated to done")]
    (by decide)

/-- Claim C2 counterexample: the Supabase branch of `router.delete('/:id')`
checks only for a query error, so deleting an id with no matching row (here
id `X` against an empty table) succeeds and still invokes
`broadcastToClients` with `request-deleted` — the claim says a not-found
target must produce no broadcast at all. -/
theorem claim_C2_counterexample :
    (([] : List Obj).any (matchesId "X")) = false
    ∧ deleteRoute true "X" (DataStore.supa [] false)
        = ⟨200,
           [("request-deleted", EventPayload.ident "X" "Request X has been deleted")],
           DataStore.supa [] false⟩ :=
  ⟨rfl, rfl⟩

/-- Claim C2 (amended): with the SSE module loaded, every create, update,
and delete invokes `broadcastToClients` exactly once with the matching event
type and the resulting record (for delete, the identifier) when the
data-store operation succeeds, and not at all when validation rejects the
body, the data-store operation fails, or the target id of an update (either
branch) or of a mock-branch delete is not found — with the one exception the
counterexample forces: a Supabase-branch delete of an absent id succeeds
(the delete removes no rows but reports no error) and broadcasts
`request-deleted` once. -/
theorem claim_C2_broadcast_triggers (now year rand : Nat) (iso id : String)
    (body : Obj) (store rows : List Obj) :
    (∀ db, validateRequest now body ≠ [] →
      (postRoute now iso year rand true body db).broadcasts = [])
    ∧ (postRoute now iso year rand true body (.supa rows true)).broadcasts = []
    ∧ (validateRequest now body = [] → ∃ rec m,
        postRoute now iso year rand true body (.mock store)
          = ⟨201, [("request-created", .record rec m)], .mock (rec :: store)⟩)
    ∧ (validateRequest now body = [] → ∃ rec m,
        postRoute now iso year rand true body (.supa rows false)
          = ⟨201, [("request-created", .record rec m)], .supa (rows ++ [rec]) false⟩)
    ∧ (updateFirst (matchesId id) (fun r => mergeObjs r (putUpdateData iso body)) store
          = none →
        putRoute iso true id body (.mock store) = ⟨404, [], .mock store⟩)
    ∧ (∀ store2 u,
        updateFirst (matchesId id) (fun r => mergeObjs r (putUpdateData iso body)) store
          = some (store2, u) →
        ∃ m, putRoute iso true id body (.mock store)
          = ⟨200, [("request-updated", .record u m)], .mock store2⟩)
    ∧ (putRoute iso true id body (.supa rows true)).broadcasts = []
    ∧ (updateFirst (matchesId id) (fun r => mergeObjs r (putUpdateData iso body)) rows
          = none →
        putRoute iso true id body (.supa rows false) = ⟨404, [], .supa rows false⟩)
    ∧ (∀ rows2 u,
        updateFirst (matchesId id) (fun r => mergeObjs r (putUpdateData iso body)) rows
          = some (rows2, u) →
        ∃ m, putRoute iso true id body (.supa rows false)
          = ⟨200, [("request-updated", .record u m)], .supa rows2 false⟩)
    ∧ (removeFirst (matchesId id) store = none →
        deleteRoute true id (.mock store) = ⟨404, [], .mock store⟩)
    ∧ (∀ store2, removeFirst (matchesId id) store = some store2 →
        deleteRoute true id (.mock store)
          = ⟨200, [("request-deleted",
              EventPayload.ident id ("Request " ++ id ++ " has been deleted"))], .mock store2⟩)
    ∧ (deleteRoute true id (.supa rows true)).broadcasts = []
    ∧ deleteRoute true id (.supa rows false)
        = ⟨200, [("request-deleted",
            EventPayload.ident id ("Request " ++ id ++ " has been deleted"))],
           .supa (rows.filter (fun r => !(matchesId id r))) false⟩ := by
  refine ⟨?_, ?_, ?_, ?_, ?_, ?_, ?_, ?_, ?_, ?_, ?_, ?_, ?_⟩
  · intro db hne
    simp only [postRoute]
    rw [if_pos (List.length_pos.mpr hne)]
  · by_cases hv : 0 < (validateRequest now body).length
    · simp only [postRoute]; rw [if_pos hv]
    · simp only [postRoute]; rw [if_neg hv]; rfl
  · intro hval
    have hv : ¬ 0 < (validateRequest now body).length := by simp [hval]
    refine ⟨postRequestData iso year rand body,
      "New service request: " ++ fieldStr (postRequestData iso year rand body) "request_id", ?_⟩
    simp only [postRoute]
    rw [if_neg hv]
    rfl
  · intro hval
    have hv : ¬ 0 < (validateRequest now body).length := by simp [hval]
    refine ⟨postRequestData iso year rand body,
      "New service request: " ++ fieldStr (postRequestData iso year rand body) "request_id", ?_⟩
    simp only [postRoute]
    rw [if_neg hv]
    rfl
  · intro hu
    simp only [putRoute]
    rw [hu]
  · intro store2 u hu
    refine ⟨"Request " ++ fieldStr u "request_id" ++ " status updated to "
      ++ fieldStr u "status", ?_⟩
    simp only [putRoute]
    rw [hu]
    rfl
  · rfl
  · intro hu
    simp only [putRoute]
    rw [if_neg (by simp), hu]
  · intro rows2 u hu
    refine ⟨"Request " ++ fieldStr u "request_id" ++ " status updated to "
      ++ fieldStr u "status", ?_⟩
    simp only [putRoute]
    rw [if_neg (by simp), hu]
    rfl
  · intro hr
    simp only [deleteRoute]
    rw [hr]
  · intro store2 hr
    simp only [deleteRoute]
    rw [hr]
    rfl
  · rfl
  · rfl

theorem claim_C2_witness :
    validateRequest 0 sampleBody = []
    ∧ ((postRoute 0 "2024-01-10T00:00:00.000Z" 2024 7 true sampleBody
        (DataStore.mock [])).broadcasts).map Prod.fst = ["request-created"] := by
  refine ⟨by decide, ?_⟩
  obtain ⟨rec, m, heq⟩ :=
    (claim_C2_broadcast_triggers 0 2024 7 "2024-01-10T00:00:00.000Z" "X"
      sampleBody [] []).2.2.1 (by decide)
  rw [heq]
  rfl

end DroneFlow
